import Mathlib

/-!
Shallow embedding of the STLED316S Arduino driver (maxgerhardt/STLED316S) in
Lean 4.

The repository ships only the header `src/STLED316S.h`: it contains the
register constants, the digit-encoding table initializer, the member
declarations and the class hierarchy.  The method bodies live in a `.cpp`
file that is not part of the source tree here, so each operation's behaviour
is modelled from the specification's description of it (every such definition
carries a doc comment starting with `Modelled from the spec:`).  Constants
and declaration-level facts are embedded directly from the header.

Machine bytes (`uint8_t`) are modelled as `Nat` with explicit `% 256` /
`&&& 0xFF` truncation exactly where the C++ narrows a value.  Fixed C arrays
(`uint8_t[7]`, `uint8_t[3]`, `uint8_t[4]`) are modelled as total functions
`Nat → Nat` whose meaningful domain is the array's index range; the header
code never guards indices (the spec calls out-of-range digit values
"caller responsibility"), so out-of-range slots simply carry values that no
operation of the model reads.
-/

namespace STLED316S

/-! ## Register and configuration constants (from `src/STLED316S.h`, lines 78-110) -/

def STLED316S_DEFAULT_BRIGHTNESS : Nat := 2

def STLED316S_DISP_ON_CMD : Nat := 0x0D
def STLED316S_DISP_OFF_CMD : Nat := 0x0E

def STLED316S_DATA_WR : Nat := 0x00
def STLED316S_DATA_RD : Nat := 0x40
def STLED316S_ADDR_INC : Nat := 0x00
def STLED316S_ADDR_FIXED : Nat := 0x20
def STLED316S_CONF1_PAGE : Nat := 0x10
def STLED316S_DIG_PAGE : Nat := 0x00
def STLED316S_LED_PAGE : Nat := 0x08
def STLED316S_BRT_LED_PAGE : Nat := 0x18
def STLED316S_READ_PAGE : Nat := 0x08

def STLED316S_ADDR_LED_DATA : Nat := 0x00
def STLED316S_ADDR_KEY_DATA1 : Nat := 0x01
def STLED316S_ADDR_KEY_DATA2 : Nat := 0x02

def SEG1 : Nat := 0x01
def SEG2 : Nat := 0x02
def SEG3 : Nat := 0x04
def SEG4 : Nat := 0x08
def SEG5 : Nat := 0x10
def SEG6 : Nat := 0x20
def SEG7 : Nat := 0x40
def SEG8 : Nat := 0x80

/-- The digit-encoding table, from the member initializer of
`_digit_table[16]` in `src/STLED316S.h`, line 146. -/
def digit_table : List Nat :=
  [0x77, 0x14, 0xB3, 0xB6, 0xD4, 0xE6, 0xE7, 0x34, 0xF7, 0xF6, 0xF5, 0xC7,
   0x63, 0x97, 0xE3, 0xE1]

/-- Table lookup, total with default 0 (index is always a nibble < 16 at
every call site of the model). -/
def tableAt (i : Nat) : Nat := digit_table.getD i 0

/-- Partial inverse of the encoding table: the index of the first table entry
equal to `b`, if any. -/
def tableInv (b : Nat) : Option Nat := digit_table.findIdx? (· = b)

/-- The decimal-point bit of a display-buffer byte.  Modelled from the spec:
each buffer byte is "a segment bitmask (bit n ↔ segment n+1) possibly OR'd
with the decimal-point bit"; bit 3 (`0x08`) is the one bit that is clear in
every entry of `digit_table`, i.e. the one segment position the digit
patterns never use, so it is the decimal-point position. -/
def DP_BIT : Nat := 0x08

/-! ## Controller state (members of `STLED316S_Common`, header lines 145-151)

`transcript` records, newest last, every byte list handed to the transport's
`writeData`; the spec requires all bytes of one logical operation to go out
in a single transport call. -/

structure State where
  dispDataBuffer : Nat → Nat
  digit_brightness : Nat → Nat
  LED_brightness : Nat → Nat
  digDP : Nat
  LED_state : Nat
  nbrOfDigit : Nat
  transcript : List (List Nat)

/-- Constructor `STLED316S_Common(uint8_t nbrOfDigit)`.  Modelled from the
spec: all entities are "zero-initialized at controller construction"; the
digit count is "fixed at construction". -/
def mkState (n : Nat) : State where
  dispDataBuffer := fun _ => 0
  digit_brightness := fun _ => 0
  LED_brightness := fun _ => 0
  digDP := 0
  LED_state := 0
  nbrOfDigit := n % 256
  transcript := []

/-- Command framing shared by all writes.  Modelled from the spec: "a leading
command byte encodes {read/write, address-increment vs fixed, page select},
followed by the target address, followed by one or more data bytes". -/
def mkFrame (cmd addr : Nat) (data : List Nat) : List Nat := cmd :: addr :: data

/-- Brightness clamp.  Modelled from the spec: "clamps level to [0,7]". -/
def clampBrightness (b : Nat) : Nat := if b > 7 then 7 else b

/-- Single-digit brightness write.  Modelled from the spec: digit brightness
state is "per-digit brightness levels (3 stored values)" (two digits share a
stored slot, digit d ↦ slot (d-1)/2), the level is already clamped by the
caller, and one configuration-page frame is issued per digit. -/
def setBrightnessOne (d b : Nat) (s : State) : State :=
  { s with
    digit_brightness := Function.update s.digit_brightness ((d - 1) / 2) b
    transcript := s.transcript ++
      [mkFrame (STLED316S_DATA_WR ||| STLED316S_ADDR_FIXED ||| STLED316S_CONF1_PAGE)
        ((d - 1) / 2) [b]] }

/-- Broadcast helper: apply the single-digit brightness write to digits
1..k in order.  Modelled from the spec: "digit=0 broadcasts to every digit
1..DigitCount by iterating and issuing one write per digit". -/
def setBrightnessAll (k b : Nat) (s : State) : State :=
  match k with
  | 0 => s
  | k + 1 => setBrightnessOne (k + 1) b (setBrightnessAll k b s)

/-- `setBrightness(DIGITnum, brightness)`.  Modelled from the spec: "clamps
level to [0,7]; digit=0 broadcasts to every digit 1..DigitCount".  The
`uint8_t` parameter narrows the argument mod 256 before the body runs. -/
def setBrightness (d brightness : Nat) (s : State) : State :=
  let b := clampBrightness (brightness % 256)
  if d = 0 then setBrightnessAll s.nbrOfDigit b s else setBrightnessOne d b s

/-- Single-LED-group brightness write.  Modelled from the spec: LED
brightness state is "per-LED-group brightness levels (4 stored values)" (two
of the 8 one-hot LED groups share a stored slot, bit position k ↦ slot k/2),
level already clamped, one LED-brightness-page frame per group. -/
def setBrightnessLEDOne (bitpos b : Nat) (s : State) : State :=
  { s with
    LED_brightness := Function.update s.LED_brightness (bitpos / 2) b
    transcript := s.transcript ++
      [mkFrame (STLED316S_DATA_WR ||| STLED316S_ADDR_FIXED ||| STLED316S_BRT_LED_PAGE)
        (bitpos / 2) [b]] }

/-- Broadcast helper for LED brightness over bit positions 0..k-1.  Modelled
from the spec: the ALL sentinel is "handled by explicit iteration ... over
LED bit positions". -/
def setBrightnessLEDAll (k b : Nat) (s : State) : State :=
  match k with
  | 0 => s
  | k + 1 => setBrightnessLEDOne k b (setBrightnessLEDAll k b s)

/-- `setBrightnessLED(LEDnum, brightness)`.  Modelled from the spec:
brightness "clamped as above"; `LEDnum` is a one-hot bit mask (enum
`LEDnum_t`), the 0 sentinel broadcasts to all 8 LED bit positions. -/
def setBrightnessLED (g brightness : Nat) (s : State) : State :=
  let b := clampBrightness (brightness % 256)
  if g = 0 then setBrightnessLEDAll 8 b s
  else setBrightnessLEDOne (Nat.log2 (g % 256)) b s

/-- `setLED(LEDnum, state)`.  Modelled from the spec: "performs
read-modify-write against LEDStateMemory so only the targeted bit(s) change,
then writes the merged state plus updates the stored mirror".  Set merges by
OR, clear by AND with the 8-bit complement of the mask. -/
def setLED (g : Nat) (state : Bool) (s : State) : State :=
  let gm := g % 256
  let merged := if state then s.LED_state ||| gm
                else s.LED_state &&& (0xFF ^^^ gm)
  { s with
    LED_state := merged
    transcript := s.transcript ++
      [mkFrame (STLED316S_DATA_WR ||| STLED316S_ADDR_FIXED ||| STLED316S_LED_PAGE)
        STLED316S_ADDR_LED_DATA [merged]] }

/-- The digit-page frame flushing buffer slots 1..n, used by the display
operations.  Modelled from the spec: "all bytes for one logical operation
are sent as a single Transport write call" on the digit-data page with
auto-increment addressing. -/
def dispFrame (buf : Nat → Nat) (n : Nat) : List Nat :=
  mkFrame (STLED316S_DATA_WR ||| STLED316S_ADDR_INC ||| STLED316S_DIG_PAGE) 0
    ((List.range n).map fun i => buf (i + 1))

/-- Broadcast helper writing `raw` into buffer slots 1..k. -/
def rawFill (k raw : Nat) (buf : Nat → Nat) : Nat → Nat :=
  match k with
  | 0 => buf
  | k + 1 => Function.update (rawFill k raw buf) (k + 1) raw

/-- `dispRAW(DIGITnum, raw)`.  Modelled from the spec: "writes a
caller-supplied segment byte directly, bypassing the encoding table (digit=0
variant broadcasts)".  The `uint8_t` parameter narrows `raw` mod 256. -/
def dispRAW (d raw : Nat) (s : State) : State :=
  let r := raw % 256
  let buf := if d = 0 then rawFill s.nbrOfDigit r s.dispDataBuffer
             else Function.update s.dispDataBuffer d r
  { s with
    dispDataBuffer := buf
    transcript := s.transcript ++ [dispFrame buf s.nbrOfDigit] }

/-- `dispRAW(uint8_t *raw)` (whole-buffer variant).  Modelled from the spec:
writes a caller-supplied byte per digit slot directly. -/
def dispRAWBuf (raw : Nat → Nat) (s : State) : State :=
  let buf := fun j =>
    if 1 ≤ j ∧ j ≤ s.nbrOfDigit then raw (j - 1) % 256 else s.dispDataBuffer j
  { s with
    dispDataBuffer := buf
    transcript := s.transcript ++ [dispFrame buf s.nbrOfDigit] }

/-- Decimal fill loop.  Modelled from the spec: "converts an unsigned integer
to decimal by repeated division by 10, placing least-significant digit in the
last slot"; slot k receives `v % 10`, then the loop recurses on `v / 10`
toward slot 1, so excess most-significant digits fall off the front. -/
def udecFill (v k : Nat) (buf : Nat → Nat) : Nat → Nat :=
  match k with
  | 0 => buf
  | k + 1 => udecFill (v / 10) k (Function.update buf (k + 1) (tableAt (v % 10)))

/-- `dispUdec(nbr)`.  Modelled from the spec (§4.1 `dispUdec`). -/
def dispUdec (v : Nat) (s : State) : State :=
  let buf := udecFill (v % 2 ^ 32) s.nbrOfDigit s.dispDataBuffer
  { s with
    dispDataBuffer := buf
    transcript := s.transcript ++ [dispFrame buf s.nbrOfDigit] }

/-- Hex fill loop.  Modelled from the spec: "splits value into 4-bit nibbles,
one per digit slot from least to most significant, mapping each nibble
through DigitEncodingTable; nibbles beyond DigitCount are dropped"; slot k
receives the low nibble, then the loop recurses on `v >>> 4` toward slot 1. -/
def hexFill (v k : Nat) (buf : Nat → Nat) : Nat → Nat :=
  match k with
  | 0 => buf
  | k + 1 => hexFill (v >>> 4) k (Function.update buf (k + 1) (tableAt (v &&& 0xF)))

/-- `dispHex(data)`.  Modelled from the spec (§4.1 `dispHex`). -/
def dispHex (v : Nat) (s : State) : State :=
  let buf := hexFill (v % 2 ^ 32) s.nbrOfDigit s.dispDataBuffer
  { s with
    dispDataBuffer := buf
    transcript := s.transcript ++ [dispFrame buf s.nbrOfDigit] }

/-- Set or clear the decimal-point bit of one buffer byte. -/
def dpApply (dpOn : Bool) (b : Nat) : Nat :=
  if dpOn then b ||| DP_BIT else b &&& (0xFF ^^^ DP_BIT)

/-- Broadcast helper applying the decimal-point update to slots 1..k. -/
def dpFill (dpOn : Bool) (k : Nat) (buf : Nat → Nat) : Nat → Nat :=
  match k with
  | 0 => buf
  | k + 1 => Function.update (dpFill dpOn k buf) (k + 1) (dpApply dpOn (buf (k + 1)))

/-- `setDP(DIGITnum, state)`.  Modelled from the spec: "sets or clears only
the decimal-point bit of the addressed buffer byte(s); never touches segment
bits"; the `_digDP` mirror keeps one bit per digit (digit d ↦ bit d-1), and
digit 0 broadcasts like the other digit-addressed operations. -/
def setDP (d state : Nat) (s : State) : State :=
  let dpOn := state % 256 ≠ 0
  let buf := if d = 0 then dpFill dpOn s.nbrOfDigit s.dispDataBuffer
             else Function.update s.dispDataBuffer d (dpApply dpOn (s.dispDataBuffer d))
  let dp := if d = 0 then (if dpOn then 0xFF else 0)
            else if dpOn then s.digDP ||| (1 <<< (d - 1))
            else s.digDP &&& (0xFF ^^^ (1 <<< (d - 1)))
  { s with
    dispDataBuffer := buf
    digDP := dp
    transcript := s.transcript ++ [dispFrame buf s.nbrOfDigit] }

/-- `displayON()`.  Modelled from the spec: "send fixed command bytes (0x0D /
0x0E) with no payload". -/
def displayON (s : State) : State :=
  { s with transcript := s.transcript ++ [[STLED316S_DISP_ON_CMD]] }

/-- `displayOFF()`.  Modelled from the spec, as `displayON`. -/
def displayOFF (s : State) : State :=
  { s with transcript := s.transcript ++ [[STLED316S_DISP_OFF_CMD]] }

/-- `clearDisplay()`.  Modelled from the spec: "zeroes the buffer and resets
brightness state, then flushes to the chip"; brightness resets to the
configured default. -/
def clearDisplay (s : State) : State :=
  let buf : Nat → Nat := fun _ => 0
  { s with
    dispDataBuffer := buf
    digit_brightness := fun _ => STLED316S_DEFAULT_BRIGHTNESS
    LED_brightness := fun _ => STLED316S_DEFAULT_BRIGHTNESS
    digDP := 0
    transcript := s.transcript ++ [dispFrame buf s.nbrOfDigit] }

/-- `begin()`.  Modelled from the spec: "initializes buffer, brightness
defaults"; the buffer is cleared and every digit and LED-group brightness is
set to `STLED316S_DEFAULT_BRIGHTNESS` through the broadcast writes. -/
def begin (s : State) : State :=
  setBrightnessLED 0 STLED316S_DEFAULT_BRIGHTNESS
    (setBrightness 0 STLED316S_DEFAULT_BRIGHTNESS
      { s with dispDataBuffer := fun _ => 0 })

/-! ## Operation alphabet and runs, for whole-trace invariants -/

inductive Op where
  | doBegin : Op
  | doDisplayON : Op
  | doDisplayOFF : Op
  | doSetBrightness (d b : Nat) : Op
  | doClearDisplay : Op
  | doDispRAW (d raw : Nat) : Op
  | doDispRAWBuf (raw : Nat → Nat) : Op
  | doDispUdec (v : Nat) : Op
  | doDispHex (v : Nat) : Op
  | doSetDP (d state : Nat) : Op
  | doSetBrightnessLED (g b : Nat) : Op
  | doSetLED (g : Nat) (state : Bool) : Op

def applyOp (op : Op) (s : State) : State :=
  match op with
  | .doBegin => begin s
  | .doDisplayON => displayON s
  | .doDisplayOFF => displayOFF s
  | .doSetBrightness d b => setBrightness d b s
  | .doClearDisplay => clearDisplay s
  | .doDispRAW d raw => dispRAW d raw s
  | .doDispRAWBuf raw => dispRAWBuf raw s
  | .doDispUdec v => dispUdec v s
  | .doDispHex v => dispHex v s
  | .doSetDP d state => setDP d state s
  | .doSetBrightnessLED g b => setBrightnessLED g b s
  | .doSetLED g state => setLED g state s

def run (ops : List Op) (s : State) : State := ops.foldl (fun t op => applyOp op t) s

/-- All stored digit and LED-group brightness values lie in [0,7]. -/
def brightnessInv (s : State) : Prop :=
  (∀ i < 3, s.digit_brightness i ≤ 7) ∧ (∀ i < 4, s.LED_brightness i ≤ 7)

instance (s : State) : Decidable (brightnessInv s) := by
  unfold brightnessInv; infer_instance

/-! ## Transport layer declarations (header lines 169-197)

The abstract transport contract of `STLED316S_Common` and which methods each
concrete backend overrides, embedded from the class declarations. -/

inductive TransportMethod where
  | writeData : TransportMethod
  | readData : TransportMethod
deriving DecidableEq

/-- Methods the peripheral-backed (SPI) transport `STLED316S_SPI` overrides:
`void writeData(uint8_t *data, uint8_t lenght) override;` only (header
lines 173-183). -/
def STLED316S_SPI_overrides : List TransportMethod := [.writeData]

/-- Methods the bit-banged transport `STLED316S` overrides: both
`writeData` and `readData` (header lines 185-197). -/
def STLED316S_overrides : List TransportMethod := [.writeData, .readData]

/-- `SwapBit(byte)` of the SPI transport.  Modelled from the spec: each byte
"passes through a bit-mirroring transform before transmission" because "the
chip expects least-significant-bit-first on the wire, while the hardware
engine shifts most-significant-bit-first": bit i of the input becomes bit
7 - i of the output. -/
def SwapBit (b : Nat) : Nat :=
  (List.range 8).foldl
    (fun acc i => if (b >>> i) &&& 1 = 1 then acc ||| (1 <<< (7 - i)) else acc) 0

/-! ## Helper lemmas -/

lemma clampBrightness_le (b : Nat) : clampBrightness b ≤ 7 := by
  unfold clampBrightness; split <;> omega

lemma rawFill_at (k r : Nat) (buf : Nat → Nat) (j : Nat) (h1 : 1 ≤ j) (h2 : j ≤ k) :
    rawFill k r buf j = r := by
  induction k with
  | zero => omega
  | succ k ih =>
    unfold rawFill
    rcases Nat.eq_or_lt_of_le h2 with h | h
    · simp [h, Function.update_apply]
    · have hj : j ≤ k := by omega
      have hne : j ≠ k + 1 := by omega
      simp [Function.update_apply, hne, ih hj]

lemma hexFill_out (v k : Nat) (buf : Nat → Nat) (j : Nat) (h : k < j) :
    hexFill v k buf j = buf j := by
  induction k generalizing v buf with
  | zero => rfl
  | succ k ih =>
    unfold hexFill
    have hne : j ≠ k + 1 := by omega
    rw [ih _ _ (by omega)]
    simp [Function.update_apply, hne]

lemma hexFill_at (v k : Nat) (buf : Nat → Nat) (j : Nat) (h1 : 1 ≤ j) (h2 : j ≤ k) :
    hexFill v k buf j = tableAt ((v >>> (4 * (k - j))) &&& 0xF) := by
  induction k generalizing v buf with
  | zero => omega
  | succ k ih =>
    unfold hexFill
    rcases Nat.eq_or_lt_of_le h2 with h | h
    · rw [hexFill_out _ _ _ _ (by omega)]
      simp [h, Function.update_apply]
    · have hj : j ≤ k := by omega
      rw [ih _ _ hj]
      have harith : 4 * (k + 1 - j) = 4 + 4 * (k - j) := by omega
      rw [harith, Nat.shiftRight_add]

lemma udecFill_out (v k : Nat) (buf : Nat → Nat) (j : Nat) (h : k < j) :
    udecFill v k buf j = buf j := by
  induction k generalizing v buf with
  | zero => rfl
  | succ k ih =>
    unfold udecFill
    have hne : j ≠ k + 1 := by omega
    rw [ih _ _ (by omega)]
    simp [Function.update_apply, hne]

lemma udecFill_at (v k : Nat) (buf : Nat → Nat) (j : Nat) (h1 : 1 ≤ j) (h2 : j ≤ k) :
    udecFill v k buf j = tableAt ((v / 10 ^ (k - j)) % 10) := by
  induction k generalizing v buf with
  | zero => omega
  | succ k ih =>
    unfold udecFill
    rcases Nat.eq_or_lt_of_le h2 with h | h
    · rw [udecFill_out _ _ _ _ (by omega)]
      simp [h, Function.update_apply]
    · have hj : j ≤ k := by omega
      rw [ih _ _ hj]
      have harith : 10 ^ (k + 1 - j) = 10 * 10 ^ (k - j) := by
        have : k + 1 - j = (k - j) + 1 := by omega
        rw [this, pow_succ]; ring
      rw [Nat.div_div_eq_div_mul, harith, Nat.mul_comm]

set_option maxRecDepth 4096 in
lemma tableInv_tableAt (d : Nat) (h : d < 16) : tableInv (tableAt d) = some d := by
  have hall : ∀ x < 16, tableInv (tableAt x) = some x := by decide
  exact hall d h

/-! ## Claim theorems -/

/-- C2: every register/wire-protocol constant of the header equals the value
in the spec's interface table exactly. -/
theorem registers_match_interface_table :
    STLED316S_DISP_ON_CMD = 0x0D ∧ STLED316S_DISP_OFF_CMD = 0x0E ∧
    STLED316S_DATA_WR = 0x00 ∧ STLED316S_DATA_RD = 0x40 ∧
    STLED316S_ADDR_INC = 0x00 ∧ STLED316S_ADDR_FIXED = 0x20 ∧
    STLED316S_CONF1_PAGE = 0x10 ∧ STLED316S_DIG_PAGE = 0x00 ∧
    STLED316S_LED_PAGE = 0x08 ∧ STLED316S_BRT_LED_PAGE = 0x18 ∧
    STLED316S_ADDR_LED_DATA = 0x00 ∧ STLED316S_ADDR_KEY_DATA1 = 0x01 ∧
    STLED316S_ADDR_KEY_DATA2 = 0x02 ∧
    SEG1 = 0x01 ∧ SEG2 = 0x02 ∧ SEG3 = 0x04 ∧ SEG4 = 0x08 ∧
    SEG5 = 0x10 ∧ SEG6 = 0x20 ∧ SEG7 = 0x40 ∧ SEG8 = 0x80 := by
  decide

/-- C9: the peripheral-backed (SPI) transport class overrides `writeData` but
not `readData`, so no register read is available through that backend (while
the bit-banged class overrides both). -/
theorem spi_transport_write_only :
    TransportMethod.writeData ∈ STLED316S_SPI_overrides ∧
    TransportMethod.readData ∉ STLED316S_SPI_overrides ∧
    TransportMethod.readData ∈ STLED316S_overrides := by
  decide

set_option maxRecDepth 40000 in
/-- C8: the bit-reversal transform of the peripheral-backed transport is a
self-inverse on bytes: applying it twice returns the argument. -/
theorem swapBit_self_inverse (b : Nat) (h : b < 256) : SwapBit (SwapBit b) = b := by
  have hall : ∀ x < 256, SwapBit (SwapBit x) = x := by decide
  exact hall b h

theorem swapBit_self_inverse_witness :
    0xA5 < 256 ∧ SwapBit (SwapBit 0xA5) = 0xA5 :=
  ⟨by decide, swapBit_self_inverse 0xA5 (by decide)⟩

/-- C5: for a digit d in [1, DigitCount] and a pattern byte, `dispRAW(d, p)`
sets buffer slot d to p and leaves every other slot unchanged, while
`dispRAW(DIGITall, p)` sets every slot 1..DigitCount to p. -/
theorem dispRAW_targets_only_slot (s : State) (d raw j : Nat)
    (hd1 : 1 ≤ d) (hdn : d ≤ s.nbrOfDigit) (hraw : raw ≤ 255) :
    (dispRAW d raw s).dispDataBuffer d = raw ∧
    (j ≠ d → (dispRAW d raw s).dispDataBuffer j = s.dispDataBuffer j) ∧
    (1 ≤ j → j ≤ s.nbrOfDigit → (dispRAW 0 raw s).dispDataBuffer j = raw) := by
  have hd0 : d ≠ 0 := by omega
  have hmod : raw % 256 = raw := Nat.mod_eq_of_lt (by omega)
  refine ⟨?_, ?_, ?_⟩
  · simp [dispRAW, hd0, Function.update_apply, hmod]
  · intro hne
    simp [dispRAW, hd0, Function.update_apply, hne]
  · intro h1 h2
    show rawFill s.nbrOfDigit (raw % 256) s.dispDataBuffer j = raw
    rw [rawFill_at _ _ _ _ h1 h2, hmod]

theorem dispRAW_targets_only_slot_witness :
    1 ≤ 2 ∧ 2 ≤ (mkState 6).nbrOfDigit ∧ 0xB6 ≤ 255 ∧
    ((dispRAW 2 0xB6 (mkState 6)).dispDataBuffer 2 = 0xB6 ∧
     (5 ≠ 2 → (dispRAW 2 0xB6 (mkState 6)).dispDataBuffer 5 = (mkState 6).dispDataBuffer 5) ∧
     (1 ≤ 5 → 5 ≤ (mkState 6).nbrOfDigit → (dispRAW 0 0xB6 (mkState 6)).dispDataBuffer 5 = 0xB6)) :=
  ⟨by decide, by decide, by decide,
   dispRAW_targets_only_slot (mkState 6) 2 0xB6 5 (by decide) (by decide) (by decide)⟩

lemma mod_pow_div_mod (v n j : Nat) (h1 : 1 ≤ j) (h2 : j ≤ n) :
    v % 10 ^ n / 10 ^ (n - j) % 10 = v / 10 ^ (n - j) % 10 := by
  have hn : 10 ^ n = 10 ^ (n - j) * 10 ^ j := by
    rw [← pow_add]
    congr 1
    omega
  rw [hn, Nat.mod_mul_right_div_self]
  exact Nat.mod_mod_of_dvd _ (dvd_pow_self 10 (by omega))

/-- C6: for a digit d in [1, DigitCount], `setDP(d, 1)` sets exactly the
decimal-point bit of buffer slot d and `setDP(d, 0)` clears exactly that bit;
in both cases every segment bit of slot d and every other slot are left
untouched. -/
theorem setDP_changes_only_dp_bit (s : State) (d j i : Nat)
    (hd1 : 1 ≤ d) (hdn : d ≤ s.nbrOfDigit) (hi : i < 8) (hi3 : i ≠ 3)
    (hj : j ≠ d) :
    ((setDP d 1 s).dispDataBuffer d).testBit 3 = true ∧
    ((setDP d 1 s).dispDataBuffer d).testBit i = (s.dispDataBuffer d).testBit i ∧
    (setDP d 1 s).dispDataBuffer j = s.dispDataBuffer j ∧
    ((setDP d 0 s).dispDataBuffer d).testBit 3 = false ∧
    ((setDP d 0 s).dispDataBuffer d).testBit i = (s.dispDataBuffer d).testBit i ∧
    (setDP d 0 s).dispDataBuffer j = s.dispDataBuffer j := by
  have hd0 : d ≠ 0 := by omega
  have hset : (setDP d 1 s).dispDataBuffer
      = Function.update s.dispDataBuffer d (s.dispDataBuffer d ||| DP_BIT) := by
    simp [setDP, hd0, dpApply]
  have hclr : (setDP d 0 s).dispDataBuffer
      = Function.update s.dispDataBuffer d (s.dispDataBuffer d &&& (0xFF ^^^ DP_BIT)) := by
    simp [setDP, hd0, dpApply]
  have hdp3 : (DP_BIT : Nat).testBit 3 = true := by decide
  have hdpi : ∀ m < 8, m ≠ 3 → (DP_BIT : Nat).testBit m = false := by decide
  have hmask3 : ((0xFF ^^^ DP_BIT : Nat)).testBit 3 = false := by decide
  have hmaski : ∀ m < 8, m ≠ 3 → ((0xFF ^^^ DP_BIT : Nat)).testBit m = true := by decide
  refine ⟨?_, ?_, ?_, ?_, ?_, ?_⟩
  · rw [hset, Function.update_same, Nat.testBit_or, hdp3, Bool.or_true]
  · rw [hset, Function.update_same, Nat.testBit_or, hdpi i hi hi3, Bool.or_false]
  · rw [hset, Function.update_noteq hj]
  · rw [hclr, Function.update_same, Nat.testBit_and, hmask3, Bool.and_false]
  · rw [hclr, Function.update_same, Nat.testBit_and, hmaski i hi hi3, Bool.and_true]
  · rw [hclr, Function.update_noteq hj]

theorem setDP_changes_only_dp_bit_witness :
    1 ≤ 2 ∧ 2 ≤ (dispRAW 0 0x77 (mkState 6)).nbrOfDigit ∧ 6 < 8 ∧ 6 ≠ 3 ∧ 4 ≠ 2 ∧
    (((setDP 2 1 (dispRAW 0 0x77 (mkState 6))).dispDataBuffer 2).testBit 3 = true ∧
     ((setDP 2 1 (dispRAW 0 0x77 (mkState 6))).dispDataBuffer 2).testBit 6
       = ((dispRAW 0 0x77 (mkState 6)).dispDataBuffer 2).testBit 6 ∧
     (setDP 2 1 (dispRAW 0 0x77 (mkState 6))).dispDataBuffer 4
       = (dispRAW 0 0x77 (mkState 6)).dispDataBuffer 4 ∧
     ((setDP 2 0 (dispRAW 0 0x77 (mkState 6))).dispDataBuffer 2).testBit 3 = false ∧
     ((setDP 2 0 (dispRAW 0 0x77 (mkState 6))).dispDataBuffer 2).testBit 6
       = ((dispRAW 0 0x77 (mkState 6)).dispDataBuffer 2).testBit 6 ∧
     (setDP 2 0 (dispRAW 0 0x77 (mkState 6))).dispDataBuffer 4
       = (dispRAW 0 0x77 (mkState 6)).dispDataBuffer 4) :=
  ⟨by decide, by decide, by decide, by decide, by decide,
   setDP_changes_only_dp_bit (dispRAW 0 0x77 (mkState 6)) 2 4 6
     (by decide) (by decide) (by decide) (by decide) (by decide)⟩

/-- C1: the digit-encoding table is exactly the 16-entry sequence
0x77,0x14,0xB3,0xB6,0xD4,0xE6,0xE7,0x34,0xF7,0xF6,0xF5,0xC7,0x63,0x97,0xE3,0xE1
(header line 146), and `dispHex` fills buffer slot j with the table entry of
the corresponding nibble of its argument, least-significant nibble in the
last slot. -/
theorem dispHex_uses_digit_table (s : State) (v j : Nat)
    (hv : v < 2 ^ 32) (h1 : 1 ≤ j) (h2 : j ≤ s.nbrOfDigit) :
    digit_table = [0x77, 0x14, 0xB3, 0xB6, 0xD4, 0xE6, 0xE7, 0x34,
                   0xF7, 0xF6, 0xF5, 0xC7, 0x63, 0x97, 0xE3, 0xE1] ∧
    (dispHex v s).dispDataBuffer j
      = digit_table.getD ((v >>> (4 * (s.nbrOfDigit - j))) &&& 0xF) 0 ∧
    (v >>> (4 * (s.nbrOfDigit - j))) &&& 0xF < 16 := by
  refine ⟨rfl, ?_, ?_⟩
  · show hexFill (v % 2 ^ 32) s.nbrOfDigit s.dispDataBuffer j = _
    rw [Nat.mod_eq_of_lt hv, hexFill_at _ _ _ _ h1 h2]
    rfl
  · have := Nat.and_le_right (n := v >>> (4 * (s.nbrOfDigit - j))) (m := 0xF)
    omega

theorem dispHex_uses_digit_table_witness :
    0x1A2B3C < 2 ^ 32 ∧ 1 ≤ 6 ∧ 6 ≤ (mkState 6).nbrOfDigit ∧
    (digit_table = [0x77, 0x14, 0xB3, 0xB6, 0xD4, 0xE6, 0xE7, 0x34,
                    0xF7, 0xF6, 0xF5, 0xC7, 0x63, 0x97, 0xE3, 0xE1] ∧
     (dispHex 0x1A2B3C (mkState 6)).dispDataBuffer 6
       = digit_table.getD ((0x1A2B3C >>> (4 * ((mkState 6).nbrOfDigit - 6))) &&& 0xF) 0 ∧
     (0x1A2B3C >>> (4 * ((mkState 6).nbrOfDigit - 6))) &&& 0xF < 16) :=
  ⟨by decide, by decide, by decide,
   dispHex_uses_digit_table (mkState 6) 0x1A2B3C 6 (by decide) (by decide) (by decide)⟩

/-- C3: `dispUdec` places the decimal digits of its argument in the buffer,
most significant in slot 1 and least significant in the last slot, as
recovered through the inverse of the encoding table; values wider than
DigitCount decimal digits keep exactly their least-significant DigitCount
digits (truncation, no error). -/
theorem dispUdec_decimal_digits (s : State) (v j : Nat)
    (hv : v < 2 ^ 32) (h1 : 1 ≤ j) (h2 : j ≤ s.nbrOfDigit) :
    (v < 10 ^ s.nbrOfDigit →
      tableInv ((dispUdec v s).dispDataBuffer j)
        = some (v / 10 ^ (s.nbrOfDigit - j) % 10)) ∧
    tableInv ((dispUdec v s).dispDataBuffer j)
      = some (v % 10 ^ s.nbrOfDigit / 10 ^ (s.nbrOfDigit - j) % 10) := by
  have hbuf : (dispUdec v s).dispDataBuffer j
      = tableAt (v / 10 ^ (s.nbrOfDigit - j) % 10) := by
    show udecFill (v % 2 ^ 32) s.nbrOfDigit s.dispDataBuffer j = _
    rw [Nat.mod_eq_of_lt hv, udecFill_at _ _ _ _ h1 h2]
  have hdig : v / 10 ^ (s.nbrOfDigit - j) % 10 < 16 :=
    lt_of_lt_of_le (Nat.mod_lt _ (by norm_num)) (by norm_num)
  refine ⟨fun _ => ?_, ?_⟩
  · rw [hbuf, tableInv_tableAt _ hdig]
  · rw [hbuf, tableInv_tableAt _ hdig, mod_pow_div_mod v _ j h1 h2]

theorem dispUdec_decimal_digits_witness :
    908172 < 2 ^ 32 ∧ 1 ≤ 2 ∧ 2 ≤ (mkState 6).nbrOfDigit ∧
    ((908172 < 10 ^ (mkState 6).nbrOfDigit →
       tableInv ((dispUdec 908172 (mkState 6)).dispDataBuffer 2)
         = some (908172 / 10 ^ ((mkState 6).nbrOfDigit - 2) % 10)) ∧
     tableInv ((dispUdec 908172 (mkState 6)).dispDataBuffer 2)
       = some (908172 % 10 ^ (mkState 6).nbrOfDigit
           / 10 ^ ((mkState 6).nbrOfDigit - 2) % 10)) :=
  ⟨by decide, by decide, by decide,
   dispUdec_decimal_digits (mkState 6) 908172 2 (by decide) (by decide) (by decide)⟩

lemma setBrightnessAll_at (k b : Nat) (s : State) (d : Nat)
    (h1 : 1 ≤ d) (h2 : d ≤ k) :
    (setBrightnessAll k b s).digit_brightness ((d - 1) / 2) = b := by
  induction k with
  | zero => omega
  | succ k ih =>
    show (setBrightnessOne (k + 1) b (setBrightnessAll k b s)).digit_brightness _ = b
    unfold setBrightnessOne
    dsimp only
    rcases Nat.eq_or_lt_of_le h2 with h | h
    · rw [h, Function.update_same]
    · by_cases hslot : (d - 1) / 2 = (k + 1 - 1) / 2
      · rw [hslot, Function.update_same]
      · rw [Function.update_noteq hslot]
        exact ih (by omega)

lemma setBrightnessLEDAll_at (k b : Nat) (s : State) (i : Nat) (h : 2 * i < k) :
    (setBrightnessLEDAll k b s).LED_brightness i = b := by
  induction k with
  | zero => omega
  | succ k ih =>
    show (setBrightnessLEDOne k b (setBrightnessLEDAll k b s)).LED_brightness _ = b
    unfold setBrightnessLEDOne
    dsimp only
    by_cases hslot : i = k / 2
    · rw [hslot, Function.update_same]
    · rw [Function.update_noteq hslot]
      exact ih (by omega)

lemma setBrightnessLEDAll_digit (k b : Nat) (s : State) :
    (setBrightnessLEDAll k b s).digit_brightness = s.digit_brightness := by
  induction k with
  | zero => rfl
  | succ k ih => simpa [setBrightnessLEDAll, setBrightnessLEDOne] using ih

lemma setBrightnessLEDAll_state (k b : Nat) (s : State) :
    (setBrightnessLEDAll k b s).LED_state = s.LED_state := by
  induction k with
  | zero => rfl
  | succ k ih => simpa [setBrightnessLEDAll, setBrightnessLEDOne] using ih

lemma setBrightnessLED_LED_state (g b : Nat) (s : State) :
    (setBrightnessLED g b s).LED_state = s.LED_state := by
  unfold setBrightnessLED
  split
  · exact setBrightnessLEDAll_state _ _ _
  · rfl

lemma setLED_state (g : Nat) (st : Bool) (s : State) :
    (setLED g st s).LED_state
      = if st then s.LED_state ||| (g % 256)
        else s.LED_state &&& (0xFF ^^^ g % 256) := rfl

lemma inv_setBrightnessOne (d b : Nat) (s : State) (hb : b ≤ 7)
    (h : brightnessInv s) : brightnessInv (setBrightnessOne d b s) := by
  obtain ⟨h1, h2⟩ := h
  refine ⟨fun i hi => ?_, h2⟩
  show Function.update s.digit_brightness ((d - 1) / 2) b i ≤ 7
  by_cases hc : i = (d - 1) / 2
  · rw [hc, Function.update_same]; exact hb
  · rw [Function.update_noteq hc]; exact h1 i hi

lemma inv_setBrightnessAll (k b : Nat) (s : State) (hb : b ≤ 7)
    (h : brightnessInv s) : brightnessInv (setBrightnessAll k b s) := by
  induction k with
  | zero => exact h
  | succ k ih => exact inv_setBrightnessOne _ _ _ hb ih

lemma inv_setBrightness (d b : Nat) (s : State) (h : brightnessInv s) :
    brightnessInv (setBrightness d b s) := by
  unfold setBrightness
  split
  · exact inv_setBrightnessAll _ _ _ (clampBrightness_le _) h
  · exact inv_setBrightnessOne _ _ _ (clampBrightness_le _) h

lemma inv_setBrightnessLEDOne (p b : Nat) (s : State) (hb : b ≤ 7)
    (h : brightnessInv s) : brightnessInv (setBrightnessLEDOne p b s) := by
  obtain ⟨h1, h2⟩ := h
  refine ⟨h1, fun i hi => ?_⟩
  show Function.update s.LED_brightness (p / 2) b i ≤ 7
  by_cases hc : i = p / 2
  · rw [hc, Function.update_same]; exact hb
  · rw [Function.update_noteq hc]; exact h2 i hi

lemma inv_setBrightnessLEDAll (k b : Nat) (s : State) (hb : b ≤ 7)
    (h : brightnessInv s) : brightnessInv (setBrightnessLEDAll k b s) := by
  induction k with
  | zero => exact h
  | succ k ih => exact inv_setBrightnessLEDOne _ _ _ hb ih

lemma inv_setBrightnessLED (g b : Nat) (s : State) (h : brightnessInv s) :
    brightnessInv (setBrightnessLED g b s) := by
  unfold setBrightnessLED
  split
  · exact inv_setBrightnessLEDAll _ _ _ (clampBrightness_le _) h
  · exact inv_setBrightnessLEDOne _ _ _ (clampBrightness_le _) h

lemma inv_clearDisplay (s : State) : brightnessInv (clearDisplay s) :=
  ⟨fun _ _ => by simp [clearDisplay, STLED316S_DEFAULT_BRIGHTNESS],
   fun _ _ => by simp [clearDisplay, STLED316S_DEFAULT_BRIGHTNESS]⟩

lemma inv_begin (s : State) (h : brightnessInv s) : brightnessInv (begin s) := by
  unfold begin
  exact inv_setBrightnessLED _ _ _ (inv_setBrightness _ _ _ h)

lemma inv_mkState (n : Nat) : brightnessInv (mkState n) :=
  ⟨fun _ _ => by simp [mkState], fun _ _ => by simp [mkState]⟩

lemma inv_applyOp (op : Op) (s : State) (h : brightnessInv s) :
    brightnessInv (applyOp op s) := by
  cases op with
  | doBegin => exact inv_begin _ h
  | doDisplayON => exact h
  | doDisplayOFF => exact h
  | doSetBrightness d b => exact inv_setBrightness _ _ _ h
  | doClearDisplay => exact inv_clearDisplay _
  | doDispRAW d raw => exact h
  | doDispRAWBuf raw => exact h
  | doDispUdec v => exact h
  | doDispHex v => exact h
  | doSetDP d st => exact h
  | doSetBrightnessLED g b => exact inv_setBrightnessLED _ _ _ h
  | doSetLED g st => exact h

lemma inv_run (ops : List Op) (s : State) (h : brightnessInv s) :
    brightnessInv (run ops s) := by
  induction ops generalizing s with
  | nil => exact h
  | cons op ops ih => exact ih _ (inv_applyOp op s h)

lemma setBrightnessLED_digit (g b : Nat) (s : State) :
    (setBrightnessLED g b s).digit_brightness = s.digit_brightness := by
  unfold setBrightnessLED
  split
  · exact setBrightnessLEDAll_digit _ _ _
  · rfl

lemma setBrightness_broadcast_at (b : Nat) (s : State) (d : Nat)
    (h1 : 1 ≤ d) (h2 : d ≤ s.nbrOfDigit) :
    (setBrightness 0 b s).digit_brightness ((d - 1) / 2)
      = clampBrightness (b % 256) := by
  show (setBrightnessAll s.nbrOfDigit (clampBrightness (b % 256)) s).digit_brightness _ = _
  exact setBrightnessAll_at _ _ _ _ h1 h2

lemma setBrightnessLED_broadcast_at (b : Nat) (s : State) (i : Nat) (hi : i < 4) :
    (setBrightnessLED 0 b s).LED_brightness i = clampBrightness (b % 256) := by
  show (setBrightnessLEDAll 8 (clampBrightness (b % 256)) s).LED_brightness i = _
  exact setBrightnessLEDAll_at _ _ _ _ (by omega)

/-- C10: the default brightness constant is 2, inside the clamp range [0,7],
and after `begin()` every stored digit brightness slot (for digits
1..DigitCount) and every stored LED-group brightness slot holds exactly this
default. -/
theorem begin_sets_default_brightness (n d i : Nat)
    (hd1 : 1 ≤ d) (hdn : d ≤ (mkState n).nbrOfDigit) (hi : i < 4) :
    STLED316S_DEFAULT_BRIGHTNESS = 2 ∧ STLED316S_DEFAULT_BRIGHTNESS ≤ 7 ∧
    (begin (mkState n)).digit_brightness ((d - 1) / 2) = STLED316S_DEFAULT_BRIGHTNESS ∧
    (begin (mkState n)).LED_brightness i = STLED316S_DEFAULT_BRIGHTNESS := by
  have hclamp : clampBrightness (STLED316S_DEFAULT_BRIGHTNESS % 256)
      = STLED316S_DEFAULT_BRIGHTNESS := by decide
  refine ⟨rfl, by decide, ?_, ?_⟩
  · unfold begin
    rw [setBrightnessLED_digit]
    exact (setBrightness_broadcast_at _ _ d hd1 hdn).trans hclamp
  · unfold begin
    exact (setBrightnessLED_broadcast_at _ _ i hi).trans hclamp

theorem begin_sets_default_brightness_witness :
    1 ≤ 5 ∧ 5 ≤ (mkState 6).nbrOfDigit ∧ 3 < 4 ∧
    (STLED316S_DEFAULT_BRIGHTNESS = 2 ∧ STLED316S_DEFAULT_BRIGHTNESS ≤ 7 ∧
     (begin (mkState 6)).digit_brightness ((5 - 1) / 2) = STLED316S_DEFAULT_BRIGHTNESS ∧
     (begin (mkState 6)).LED_brightness 3 = STLED316S_DEFAULT_BRIGHTNESS) :=
  ⟨by decide, by decide, by decide,
   begin_sets_default_brightness 6 5 3 (by decide) (by decide) (by decide)⟩

/-- C4: brightness levels above 7 behave exactly like level 7 for both
`setBrightness` and `setBrightnessLED` (same stored state and same
transmitted bytes, i.e. identical resulting states), and the stored digit and
LED-group brightness values stay in [0,7] across every sequence of
operations, including right after construction plus `begin()`. -/
theorem brightness_clamped_to_seven (d level n : Nat) (s s0 : State)
    (ops : List Op) (h7 : 7 < level) (h255 : level ≤ 255)
    (hinv : brightnessInv s0) :
    setBrightness d level s = setBrightness d 7 s ∧
    setBrightnessLED d level s = setBrightnessLED d 7 s ∧
    brightnessInv (run ops s0) ∧
    brightnessInv (begin (mkState n)) := by
  have hkey : clampBrightness (level % 256) = clampBrightness (7 % 256) := by
    rw [Nat.mod_eq_of_lt (by omega)]
    unfold clampBrightness
    simp [h7]
  refine ⟨?_, ?_, inv_run _ _ hinv, inv_begin _ (inv_mkState n)⟩
  · unfold setBrightness
    rw [hkey]
  · unfold setBrightnessLED
    rw [hkey]

theorem brightness_clamped_to_seven_witness :
    7 < 9 ∧ 9 ≤ 255 ∧ brightnessInv (mkState 6) ∧
    (setBrightness 1 9 (mkState 6) = setBrightness 1 7 (mkState 6) ∧
     setBrightnessLED 1 9 (mkState 6) = setBrightnessLED 1 7 (mkState 6) ∧
     brightnessInv (run [Op.doSetBrightness 0 200, Op.doSetLED 2 true] (mkState 6)) ∧
     brightnessInv (begin (mkState 6))) :=
  ⟨by decide, by decide, by decide,
   brightness_clamped_to_seven 1 9 6 (mkState 6) (mkState 6)
     [Op.doSetBrightness 0 200, Op.doSetLED 2 true] (by decide) (by decide) (by decide)⟩

/-- C7: `setLED` read-modify-writes the LED-state mirror: a later `setLED` on
a different one-hot group, or any `setBrightnessLED`, never alters the stored
bit of an earlier group, and every `setLED` transmits exactly the merged
value that it stores in the mirror. -/
theorem setLED_read_modify_write (s : State) (k k2 g b : Nat) (st st2 : Bool)
    (hk : k < 8) (hk2 : k2 < 8) (hne : k ≠ k2) :
    ((setLED (2 ^ k2) st2 (setLED (2 ^ k) st s)).LED_state.testBit k
       = (setLED (2 ^ k) st s).LED_state.testBit k) ∧
    ((setBrightnessLED g b (setLED (2 ^ k) st s)).LED_state.testBit k
       = (setLED (2 ^ k) st s).LED_state.testBit k) ∧
    (setLED g st s).transcript
      = s.transcript ++
        [mkFrame (STLED316S_DATA_WR ||| STLED316S_ADDR_FIXED ||| STLED316S_LED_PAGE)
          STLED316S_ADDR_LED_DATA [(setLED g st s).LED_state]] := by
  have hpow : (2 : Nat) ^ k2 < 256 := by
    calc (2 : Nat) ^ k2 < 2 ^ 8 := Nat.pow_lt_pow_right (by norm_num) hk2
      _ = 256 := by norm_num
  have hmod : (2 : Nat) ^ k2 % 256 = 2 ^ k2 := Nat.mod_eq_of_lt hpow
  refine ⟨?_, ?_, rfl⟩
  · rw [setLED_state (2 ^ k2) st2, hmod]
    cases st2 with
    | false =>
      have hmask : ((0xFF : Nat) ^^^ 2 ^ k2).testBit k = true := by
        rw [show (0xFF : Nat) = 2 ^ 8 - 1 by norm_num, Nat.testBit_xor,
            Nat.testBit_two_pow_sub_one, Nat.testBit_two_pow_of_ne (Ne.symm hne)]
        simp [hk]
      rw [if_neg Bool.false_ne_true, Nat.testBit_and, hmask, Bool.and_true]
    | true =>
      rw [if_pos rfl, Nat.testBit_or, Nat.testBit_two_pow_of_ne (Ne.symm hne),
        Bool.or_false]
  · rw [setBrightnessLED_LED_state]

theorem setLED_read_modify_write_witness :
    0 < 8 ∧ 1 < 8 ∧ 0 ≠ 1 ∧
    (((setLED (2 ^ 1) false (setLED (2 ^ 0) true (mkState 6))).LED_state.testBit 0
        = (setLED (2 ^ 0) true (mkState 6)).LED_state.testBit 0) ∧
     ((setBrightnessLED 8 9 (setLED (2 ^ 0) true (mkState 6))).LED_state.testBit 0
        = (setLED (2 ^ 0) true (mkState 6)).LED_state.testBit 0) ∧
     (setLED 8 true (mkState 6)).transcript
       = (mkState 6).transcript ++
         [mkFrame (STLED316S_DATA_WR ||| STLED316S_ADDR_FIXED ||| STLED316S_LED_PAGE)
           STLED316S_ADDR_LED_DATA [(setLED 8 true (mkState 6)).LED_state]]) :=
  ⟨by decide, by decide, by decide,
   setLED_read_modify_write (mkState 6) 0 1 8 9 true false
     (by decide) (by decide) (by decide)⟩

end STLED316S
